import Mathlib

/-!
Verification of the better-auth TypeORM adapter's core logic: predicate
compilation, input/output transformation, name resolution, operation
dispatch, transaction coordination, and schema diffing.

The definitions below are a shallow embedding of the TypeScript source.
JavaScript records are modelled as association lists, JavaScript values
(including `undefined` and `null`) as an inductive `Value` type, and
thrown exceptions as `Except` results.
-/

deriving instance DecidableEq for Except

namespace TypeormAdapter

/-- A primitive JavaScript value, used as an element of array operands of
the `in` / `not_in` filter operators. -/
inductive Prim where
  | undefined : Prim
  | vnull : Prim
  | str : String → Prim
  | num : Int → Prim
  | pbool : Bool → Prim
deriving DecidableEq, Repr

/-- JavaScript runtime values as they flow through the adapter:
`undefined` is JS `undefined`, `vnull` is JS `null`; `arr` covers the array
operands the filter language supplies to `in` / `not_in` (the adapter
never builds nested arrays). -/
inductive Value where
  | undefined : Value
  | vnull : Value
  | str : String → Value
  | num : Int → Value
  | vbool : Bool → Value
  | arr : List Prim → Value
deriving DecidableEq, Repr

/-- View a primitive array element as a `Value`. -/
def primToValue : Prim → Value
  | .undefined => .undefined
  | .vnull => .vnull
  | .str s => .str s
  | .num n => .num n
  | .pbool b => .vbool b

/-- JavaScript truthiness of a `Value` (used by the source's `||` defaults
and `if (x)` guards). Objects/arrays are always truthy. -/
def truthy : Value → Bool
  | .undefined => false
  | .vnull => false
  | .str s => decide (s ≠ "")
  | .num n => decide (n ≠ 0)
  | .vbool b => b
  | .arr _ => true

/-- JavaScript string coercion of a primitive. -/
def primToString : Prim → String
  | .undefined => "undefined"
  | .vnull => "null"
  | .str s => s
  | .num n => toString n
  | .pbool b => if b then "true" else "false"

/-- JavaScript string coercion as performed by template literals such as
the source's wildcard wrapping of `contains` values. -/
def valueToString : Value → String
  | .undefined => "undefined"
  | .vnull => "null"
  | .str s => s
  | .num n => toString n
  | .vbool b => if b then "true" else "false"
  | .arr vs => String.intercalate "," (vs.map primToString)

/-- A JavaScript object: ordered key/value association list.  Keys are
unique in every object the adapter builds (assignment overwrites). -/
abbrev Obj : Type := List (String × Value)

/-- Property read `o[k]`: JS yields `undefined` when the key is absent. -/
def objGet (o : Obj) (k : String) : Value :=
  match o with
  | [] => .undefined
  | p :: ps => if p.1 = k then p.2 else objGet ps k

/-- Property assignment `o[k] = v`: overwrites in place when the key
exists (keeping its position), otherwise appends.  (Objects are maps:
every object the adapter builds has unique keys, so replacing the first
occurrence models JS assignment.) -/
def objAssign (o : Obj) (k : String) (v : Value) : Obj :=
  match o with
  | [] => [(k, v)]
  | p :: ps => if p.1 = k then (k, v) :: ps else p :: objAssign ps k v

/-- `k in o`: whether the object has the key. -/
def objHasKey (o : Obj) (k : String) : Bool :=
  o.any (fun p => p.1 = k)

/-- The keys of an object, in order. -/
def objKeys (o : Obj) : List String :=
  o.map (fun p => p.1)

/-- A thrown JavaScript exception: `jsError` is `new Error(msg)` (the
source's schema-lookup failures), `typeError` a runtime `TypeError`
(e.g. a property read on `undefined`), `betterAuth` a `BetterAuthError`
(the adapter's wrapped persistence failures), `thrown` a non-Error
value. -/
inductive JsError where
  | jsError : String → JsError
  | typeError : String → JsError
  | betterAuth : String → JsError
  | thrown : Value → JsError
deriving DecidableEq, Repr

/-- The source's `error instanceof Error ? error.message : String(error)`. -/
def jsMessage : JsError → String
  | .jsError m => m
  | .typeError m => m
  | .betterAuth m => m
  | .thrown v => valueToString v

/-- Whether an exception is a schema-registry error (the `SchemaError` of
the specification's taxonomy): a plain `Error` raised by a schema
lookup. -/
def isSchemaError : JsError → Bool
  | .jsError _ => true
  | _ => false

/-- A field's default-value specification: a literal, or a
default-value-producing function (modelled by the value it produces;
producers are pure per the specification). -/
inductive DefaultValue where
  | lit : Value → DefaultValue
  | func : Value → DefaultValue
deriving DecidableEq, Repr

/-- A Field Descriptor of the schema registry (`FieldAttribute` in the
source): optional physical-name override, required/unique flags, logical
type tag, optional default. -/
structure FieldAttribute where
  fieldName : Option String := none
  required : Bool := false
  unique : Bool := false
  ftype : String := "string"
  defaultValue : Option DefaultValue := none
deriving DecidableEq, Repr

/-- One model of the schema registry: physical table name plus the
ordered logical-name → descriptor mapping. -/
structure ModelSchema where
  modelName : String
  fields : List (String × FieldAttribute)
deriving DecidableEq, Repr

/-- The schema registry: logical model name → model schema. -/
abbrev Schema : Type := List (String × ModelSchema)

/-- `schema[model]`: registry lookup. -/
def schemaFind (schema : Schema) (model : String) : Option ModelSchema :=
  match schema.find? (fun p => p.1 = model) with
  | some p => some p.2
  | none => none

/-- `modelSchema.fields[field]`: descriptor lookup. -/
def fieldsFind (fields : List (String × FieldAttribute)) (field : String) :
    Option FieldAttribute :=
  match fields.find? (fun p => p.1 = field) with
  | some p => some p.2
  | none => none

/-- The source's `fieldAttr.fieldName || fieldName`: the physical column
name, falling back to the logical name when the override is absent or
falsy (the empty string is falsy in JS). -/
def fieldNameOr (f : FieldAttribute) (fieldName : String) : String :=
  match f.fieldName with
  | some s => if s = "" then fieldName else s
  | none => fieldName

/-- JS truthiness of `field.defaultValue`: absent is falsy, a producer
function is truthy, a literal is as truthy as its value. -/
def defaultTruthy : Option DefaultValue → Bool
  | none => false
  | some (.func _) => true
  | some (.lit v) => truthy v

/-- Resolve a default: call the producer, or take the literal. -/
def resolveDefault : Option DefaultValue → Value
  | some (.func v) => v
  | some (.lit v) => v
  | none => .undefined

/-- The `create` / `update` action tag of the input transformer. -/
inductive Action where
  | create : Action
  | update : Action
deriving DecidableEq, Repr

/-- `withApplyDefault` (legacy adapter): on `update` the value passes
through unchanged; on `create`, an `undefined`/`null` value with a truthy
declared default resolves to the default (calling the producer when it is
a function), otherwise the value passes through. -/
def withApplyDefault (value : Value) (field : FieldAttribute) (action : Action) : Value :=
  if action = .update then
    value
  else
    if value = .undefined ∨ value = .vnull then
      if defaultTruthy field.defaultValue then resolveDefault field.defaultValue
      else value
    else value

/-- `getField` (legacy adapter): resolve a logical field name to its
physical column name.  `id` is returned unchanged before any lookup; an
unknown model raises `Error("Model ... not found in schema")`; an unknown
field of a known model makes the source read `.fieldName` off `undefined`,
which raises a runtime `TypeError`. -/
def getField (schema : Schema) (model field : String) : Except JsError String :=
  if field = "id" then
    .ok field
  else
    match schemaFind schema model with
    | none => .error (.jsError ("Model " ++ model ++ " not found in schema"))
    | some modelSchema =>
      match fieldsFind modelSchema.fields field with
      | none => .error (.typeError "Cannot read properties of undefined")
      | some f => .ok (fieldNameOr f field)

/-- `getModelName` (legacy adapter): resolve a logical model name to its
physical table name, raising on an unknown model. -/
def getModelName (schema : Schema) (model : String) : Except JsError String :=
  match schemaFind schema model with
  | none => .error (.jsError ("Model " ++ model ++ " not found in schema"))
  | some modelSchema => .ok modelSchema.modelName

/-- The field loop of `transformInput`: for each declared field, skip
when its value is `undefined` and there is no truthy default or the
action is `update`; otherwise assign `withApplyDefault` of the value
under the field's physical column name. -/
def inputLoop (data : Obj) (action : Action) :
    List (String × FieldAttribute) → Obj → Obj
  | [], acc => acc
  | (field, fattr) :: rest, acc =>
    let value := objGet data field
    if value = .undefined ∧ (¬ defaultTruthy fattr.defaultValue ∨ action = .update) then
      inputLoop data action rest acc
    else
      inputLoop data action rest
        (objAssign acc (fieldNameOr fattr field) (withApplyDefault value fattr action))

/-- The seed of `transformInput`'s result: `{id: data.id}` on `create`
with adapter-generated ids, otherwise the empty object. -/
def inputInit (data : Obj) (useDatabaseGeneratedId : Bool) (action : Action) : Obj :=
  if useDatabaseGeneratedId ∨ action = .update then []
  else [("id", objGet data "id")]

/-- `transformInput` (legacy adapter): converts a logical record into a
physical record, seeded with `inputInit` and filled by `inputLoop`.
Raises on an unknown model. -/
def transformInput (schema : Schema) (data : Obj) (model : String)
    (action : Action) (useDatabaseGeneratedId : Bool) : Except JsError Obj :=
  match schemaFind schema model with
  | none => .error (.jsError ("Model " ++ model ++ " not found in schema"))
  | some modelSchema =>
    .ok (inputLoop data action modelSchema.fields (inputInit data useDatabaseGeneratedId action))

/-- The physical update object `transformInput` produces for action
`update` on a known model (the seed is empty on `update`). -/
def updateTransformed (ms : ModelSchema) (updArg : Obj) : Obj :=
  inputLoop updArg .update ms.fields []

/-- The field loop of `transformOutput`: for each declared field not
excluded by a non-empty select list, assign the value read from the
record's physical column under the logical field name. -/
def outputLoop (data : Obj) (select : List String) :
    List (String × FieldAttribute) → Obj → Obj
  | [], acc => acc
  | (key, fattr) :: rest, acc =>
    if select ≠ [] ∧ ¬ select.contains key then
      outputLoop data select rest acc
    else
      outputLoop data select rest (objAssign acc key (objGet data (fieldNameOr fattr key)))

/-- The seed of `transformOutput`'s result:
`{id: data.id || data._id}` when that value is truthy and the select list
is empty or contains `id`, otherwise the empty object. -/
def outputInit (row : Obj) (select : List String) : Obj :=
  if truthy (objGet row "id") ∨ truthy (objGet row "_id") then
    if select = [] ∨ select.contains "id" then
      [("id", if truthy (objGet row "id") then objGet row "id" else objGet row "_id")]
    else []
  else []

/-- `transformOutput` (legacy adapter): converts a physical record back
into a logical record.  `null` input yields `null`.  The result is seeded
with `outputInit` and filled by `outputLoop`.  Raises on an unknown
model. -/
def transformOutput (schema : Schema) (data : Option Obj) (model : String)
    (select : List String) : Except JsError (Option Obj) :=
  match data with
  | none => .ok none
  | some row =>
    match schemaFind schema model with
    | none => .error (.jsError ("Model " ++ model ++ " not found in schema"))
    | some modelSchema =>
      .ok (some (outputLoop row select modelSchema.fields (outputInit row select)))

/-- The native predicate forms of the mapping engine (TypeORM's
`FindOperator`s): a raw value means equality; `notOp` wraps either a raw
value (`Not(value)`) or a membership (`Not(In(...))`); `like` carries the
wildcard pattern built by the source. -/
inductive FindOperator where
  | raw : Value → FindOperator
  | notOp : FindOperator → FindOperator
  | lessThan : Value → FindOperator
  | lessThanOrEqual : Value → FindOperator
  | moreThan : Value → FindOperator
  | moreThanOrEqual : Value → FindOperator
  | inList : Value → FindOperator
  | like : String → FindOperator
deriving DecidableEq, Repr

/-- The filter operators of the where-clause language. -/
inductive Operator where
  | eq : Operator
  | ne : Operator
  | lt : Operator
  | lte : Operator
  | gt : Operator
  | gte : Operator
  | inOp : Operator
  | notIn : Operator
  | contains : Operator
  | startsWith : Operator
  | endsWith : Operator
deriving DecidableEq, Repr

/-- The boolean connector of a where-clause. -/
inductive Connector where
  | and : Connector
  | or : Connector
deriving DecidableEq, Repr

/-- A cleaned where-clause as the factory adapter's compiler consumes it:
the field is already the resolved physical column name, the operator is
optional (absent means equality), the connector defaults to AND. -/
structure CleanedWhere where
  field : String
  operator : Option Operator := none
  value : Value
  connector : Connector := .and
deriving DecidableEq, Repr

/-- `convertOperatorToTypeORM` (factory adapter, `part_003`): maps each
non-equality operator to its native form; the default case (reached for
`eq`) returns the raw value. -/
def convertOperatorToTypeORM (operator : Operator) (value : Value) : FindOperator :=
  match operator with
  | .ne => .notOp (.raw value)
  | .lt => .lessThan value
  | .lte => .lessThanOrEqual value
  | .gt => .moreThan value
  | .gte => .moreThanOrEqual value
  | .inOp => .inList value
  | .notIn => .notOp (.inList value)
  | .contains => .like ("%" ++ valueToString value ++ "%")
  | .startsWith => .like (valueToString value ++ "%")
  | .endsWith => .like ("%" ++ valueToString value)
  | _ => .raw value

/-- `convertOperatorToTypeORM` (legacy adapter, `part_002`/`part_004`):
same as the factory version except that the operator is an open string
and there is no `not_in` case, so `not_in` falls through to the default
and yields the raw value. -/
def convertOperatorToTypeORMLegacy (operator : String) (value : Value) : FindOperator :=
  match operator with
  | "eq" => .raw value
  | "ne" => .notOp (.raw value)
  | "gt" => .moreThan value
  | "lt" => .lessThan value
  | "gte" => .moreThanOrEqual value
  | "lte" => .lessThanOrEqual value
  | "in" => .inList value
  | "contains" => .like ("%" ++ valueToString value ++ "%")
  | "starts_with" => .like (valueToString value ++ "%")
  | "ends_with" => .like ("%" ++ valueToString value)
  | _ => .raw value

/-- The compiled value of one clause: the source's
`!w.operator || w.operator === "eq" ? w.value : convertOperatorToTypeORM(...)`. -/
def compileClauseValue (operator : Option Operator) (value : Value) : FindOperator :=
  match operator with
  | none => .raw value
  | some .eq => .raw value
  | some op => convertOperatorToTypeORM op value

/-- One conjunction group of compiled predicates: a JS object keyed by
physical column name. -/
abbrev FindObj : Type := List (String × FindOperator)

/-- Object-key assignment into a conjunction group (same JS semantics as
`objAssign`). -/
def groupAssign (g : FindObj) (k : String) (v : FindOperator) : FindObj :=
  match g with
  | [] => [(k, v)]
  | p :: ps => if p.1 = k then (k, v) :: ps else p :: groupAssign ps k v

/-- Assign one clause into a conjunction group:
`currentGroup[w.field] = value`. -/
def clauseAssign (g : FindObj) (w : CleanedWhere) : FindObj :=
  groupAssign g w.field (compileClauseValue w.operator w.value)

/-- One iteration of the factory compiler's loop over the cleaned
clauses, carried out on the pair (finished groups, current group): an OR
connector closes the current group and opens a fresh one; every clause is
then assigned into the current group. -/
def convertStep (state : List FindObj × FindObj) (w : CleanedWhere) :
    List FindObj × FindObj :=
  if w.connector = .or then
    (state.1 ++ [state.2], clauseAssign [] w)
  else
    (state.1, clauseAssign state.2 w)

/-- `convertWhereToFindOptions` (factory adapter, `part_003`): an empty
where list compiles to `[{}]`; otherwise the clauses are folded through
`convertStep` starting from one empty group, and the trailing current
group is appended to the finished ones. -/
def convertWhereToFindOptions (whereArg : List CleanedWhere) : List FindObj :=
  if whereArg = [] then
    [[]]
  else
    let state := whereArg.foldl convertStep ([], [])
    state.1 ++ [state.2]

/-- The compiled predicate as the caller passes it to the engine: a
single object, or a list of objects. -/
inductive FindOptionsUnion where
  | single : FindObj → FindOptionsUnion
  | multi : List FindObj → FindOptionsUnion
deriving DecidableEq, Repr

/-- The caller-site collapse
`findOptionsArr.length === 1 ? findOptionsArr[0] : findOptionsArr`
(update/delete/updateMany/deleteMany in `part_003`). -/
def collapseFindOptions (arr : List FindObj) : FindOptionsUnion :=
  match arr with
  | [g] => .single g
  | gs => .multi gs

/-- Specification-side grouping of a clause list: a new conjunction group
begins at each clause whose connector is OR (that clause belongs to the
new group); the group being built when the list ends is the last group.
The initial group is empty, so a leading OR clause leaves an empty first
group. -/
def splitAtOr : List CleanedWhere → List (List CleanedWhere)
  | [] => [[]]
  | w :: ws =>
    match splitAtOr ws with
    | [] => []
    | seg :: rest =>
      if w.connector = .or then
        [] :: (w :: seg) :: rest
      else
        (w :: seg) :: rest

/-- Specification-side compilation of one conjunction group: each clause
assigned into the group object under its (resolved) field name, with its
compiled operator value. -/
def specGroupObject (seg : List CleanedWhere) : FindObj :=
  seg.foldl clauseAssign []

/-- Specification-side compiled predicate: the ordered list of per-group
conjunction objects. -/
def specCompile (whereArg : List CleanedWhere) : List FindObj :=
  (splitAtOr whereArg).map specGroupObject

/-- A where-clause of the legacy adapter: the field is a logical name
(resolved through `getField`) and the operator is an open string. -/
structure WhereClause where
  field : String
  operator : Option String := none
  value : Value
deriving DecidableEq, Repr

/-- The loop of the legacy `convertWhereToFindOptions`: resolve each
field (which can raise) and assign the compiled value into the single
conjunction object. -/
def convertWhereLegacyLoop (schema : Schema) (model : String) :
    List WhereClause → FindObj → Except JsError FindObj
  | [], acc => .ok acc
  | w :: ws, acc =>
    match getField schema model w.field with
    | .error e => .error e
    | .ok field =>
      let value :=
        match w.operator with
        | none => FindOperator.raw w.value
        | some "eq" => FindOperator.raw w.value
        | some op => convertOperatorToTypeORMLegacy op w.value
      convertWhereLegacyLoop schema model ws (groupAssign acc field value)

/-- `convertWhereToFindOptions` (legacy adapter, `part_002`): compiles
the whole where list into one conjunction object; there is no
OR-connector handling in this variant. -/
def convertWhereToFindOptionsLegacy (schema : Schema) (model : String)
    (whereArg : List WhereClause) : Except JsError FindObj :=
  if whereArg = [] then .ok []
  else convertWhereLegacyLoop schema model whereArg []

/-- Modelled from the spec: the pattern matcher behind the engine's
`Like` predicate, with `%` matching any (possibly empty) substring. -/
def likeChars : List Char → List Char → Bool
  | [], ts => ts.isEmpty
  | c :: ps, ts =>
    if c = '%' then
      likeChars ps ts ||
        (match ts with
         | [] => false
         | _ :: ts2 => likeChars (c :: ps) ts2)
    else
      match ts with
      | [] => false
      | t :: ts2 => c = t && likeChars ps ts2
termination_by ps ts => (ps.length, ts.length)

/-- Modelled from the spec: `Like` pattern matching on strings. -/
def likeMatch (pattern text : String) : Bool :=
  likeChars pattern.toList text.toList

/-- Modelled from the spec: the engine's ordering on values (numeric and
lexicographic string comparison; other combinations do not compare). -/
def valueLt (a b : Value) : Bool :=
  match a, b with
  | .num x, .num y => decide (x < y)
  | .str x, .str y => decide (x < y)
  | _, _ => false

/-- Modelled from the spec: evaluation of one native predicate form
against a stored value (the mapping engine's semantics, §4.3/§6:
raw = equality, `Not` = negation, comparisons, membership, pattern
match). -/
def evalFindOperator : FindOperator → Value → Bool
  | .raw w, v => decide (v = w)
  | .notOp f, v => ! evalFindOperator f v
  | .lessThan w, v => valueLt v w
  | .lessThanOrEqual w, v => valueLt v w || decide (v = w)
  | .moreThan w, v => valueLt w v
  | .moreThanOrEqual w, v => valueLt w v || decide (v = w)
  | .inList w, v =>
    (match w with
     | .arr vs => vs.any (fun p => primToValue p = v)
     | _ => false)
  | .like p, v => likeMatch p (valueToString v)

/-- Modelled from the spec: a conjunction group matches a row when every
keyed predicate accepts the row's value under that key; the empty group
is the match-all predicate. -/
def matchesGroup (g : FindObj) (row : Obj) : Bool :=
  g.all (fun p => evalFindOperator p.2 (objGet row p.1))

/-- Modelled from the spec: a list of groups is a disjunction — a row
matches when some group matches. -/
def matchesAny (gs : List FindObj) (row : Obj) : Bool :=
  gs.any (fun g => matchesGroup g row)

/-- Modelled from the spec: matching against the collapsed single-object
or list form. -/
def matchesUnion (u : FindOptionsUnion) (row : Obj) : Bool :=
  match u with
  | .single g => matchesGroup g row
  | .multi gs => matchesAny gs row

/-- The table contents the engine holds: an ordered list of physical
records. -/
abbrev Db : Type := List Obj

/-- Modelled from the spec: the engine's `findOne` — the first row
matching the conjunction object. -/
def dbFindOne (db : Db) (g : FindObj) : Option Obj :=
  db.find? (fun row => matchesGroup g row)

/-- Merge a column-value object into a row (the engine applying an
update's set clause). -/
def mergeRow (row : Obj) (upd : Obj) : Obj :=
  upd.foldl (fun r p => objAssign r p.1 p.2) row

/-- Modelled from the spec: the engine's `update(criteria, values)` —
set the given columns on every matching row. -/
def applyUpdateDb (db : Db) (g : FindObj) (upd : Obj) : Db :=
  db.map (fun row => if matchesGroup g row then mergeRow row upd else row)

/-- The `try`/`catch` wrapper common to every dispatcher operation: a
failing body is re-raised as
`BetterAuthError("Failed to <op> <model>: <original message>")`. -/
def wrapTry (opLabel model : String) (body : Except JsError α) : Except JsError α :=
  match body with
  | .ok a => .ok a
  | .error e =>
    .error (.betterAuth ("Failed to " ++ opLabel ++ " " ++ model ++ ": " ++ jsMessage e))

/-- `update` (legacy adapter, `part_002` lines 211–246): resolve the
repository (outside the try, so an unknown model raises unwrapped),
compile the single conjunction object, transform the update values with
action `update`; with exactly one where-clause, read the target row
first and, when it exists, update, re-read by the same predicate and
return the transformed result; in every other case update and return
`null`. -/
def updateOp (schema : Schema) (useDatabaseGeneratedId : Bool) (db : Db)
    (model : String) (whereArg : List WhereClause) (updateArg : Obj)
    (select : List String) : Except JsError (Db × Option Obj) :=
  match getModelName schema model with
  | .error e => .error e
  | .ok _repositoryName =>
    wrapTry "update" model
      (match convertWhereToFindOptionsLegacy schema model whereArg with
       | .error e => .error e
       | .ok findOptions =>
         match transformInput schema updateArg model .update useDatabaseGeneratedId with
         | .error e => .error e
         | .ok transformed =>
           if whereArg.length = 1 then
             match dbFindOne db findOptions with
             | some _ =>
               let db2 := applyUpdateDb db findOptions transformed
               match transformOutput schema (dbFindOne db2 findOptions) model select with
               | .error e => .error e
               | .ok output => .ok (db2, output)
             | none => .ok (applyUpdateDb db findOptions transformed, none)
           else
             .ok (applyUpdateDb db findOptions transformed, none))

/-- An injected failure of the underlying repository call (the engine is
external; `some e` means the call throws `e`). -/
def repoRun (fault : Option JsError) (a : α) : Except JsError α :=
  match fault with
  | some e => .error e
  | none => .ok a

/-- `create` (factory adapter, `part_003`): persist the new row (the
factory-supplied record transforms are external to this repository and
elided; they do not affect the catch semantics). -/
def createOp (db : Db) (model : String) (row : Obj) (fault : Option JsError) :
    Except JsError (Db × Obj) :=
  wrapTry "create" model
    (match repoRun fault () with
     | .error e => .error e
     | .ok _ => .ok (db ++ [row], row))

/-- `update` (factory adapter, `part_003`): compile, collapse, and on a
single where-clause read back the updated row. -/
def updateOp3 (db : Db) (model : String) (whereArg : List CleanedWhere)
    (updateArg : Obj) (fault : Option JsError) :
    Except JsError (Db × Option Obj) :=
  wrapTry "update" model
    (match repoRun fault () with
     | .error e => .error e
     | .ok _ =>
       let findOptions := collapseFindOptions (convertWhereToFindOptions whereArg)
       let db2 := db.map (fun row =>
         if matchesUnion findOptions row then mergeRow row updateArg else row)
       if whereArg.length = 1 then
         match db.find? (fun row => matchesUnion findOptions row) with
         | some _ =>
           match db2.find? (fun row => matchesUnion findOptions row) with
           | some result => .ok (db2, some result)
           | none => .ok (db2, none)
         | none => .ok (db2, none)
       else
         .ok (db2, none))

/-- `delete` (factory adapter, `part_003`, soft-delete disabled): remove
every matching row. -/
def deleteOp (db : Db) (model : String) (whereArg : List CleanedWhere)
    (fault : Option JsError) : Except JsError Db :=
  wrapTry "delete" model
    (match repoRun fault () with
     | .error e => .error e
     | .ok _ =>
       let findOptions := collapseFindOptions (convertWhereToFindOptions whereArg)
       .ok (db.filter (fun row => ! matchesUnion findOptions row)))

/-- `findOne` (factory adapter, `part_003`): the first row matching the
compiled (possibly disjunctive) predicate. -/
def findOneOp (db : Db) (model : String) (whereArg : List CleanedWhere)
    (fault : Option JsError) : Except JsError (Option Obj) :=
  wrapTry "find" model
    (match repoRun fault () with
     | .error e => .error e
     | .ok _ =>
       .ok (db.find? (fun row => matchesAny (convertWhereToFindOptions whereArg) row)))

/-- `findMany` (factory adapter, `part_003`): the matching rows with
`skip: offset || 0` and `take: limit || 100` applied (the sort comparator
is the engine's and elided). -/
def findManyOp (db : Db) (model : String) (whereArg : List CleanedWhere)
    (limit : Int) (offset : Option Int) (fault : Option JsError) :
    Except JsError (List Obj) :=
  wrapTry "find many" model
    (match repoRun fault () with
     | .error e => .error e
     | .ok _ =>
       let matched := db.filter (fun row => matchesAny (convertWhereToFindOptions whereArg) row)
       let takeN := if limit = 0 then 100 else limit
       let skipN := match offset with
         | some o => if o = 0 then 0 else o
         | none => 0
       .ok ((matched.drop skipN.toNat).take takeN.toNat))

/-- `count` (factory adapter, `part_003`): the number of matching rows. -/
def countOp (db : Db) (model : String) (whereArg : List CleanedWhere)
    (fault : Option JsError) : Except JsError Nat :=
  wrapTry "count" model
    (match repoRun fault () with
     | .error e => .error e
     | .ok _ =>
       .ok (db.filter (fun row => matchesAny (convertWhereToFindOptions whereArg) row)).length)

/-- `updateMany` (factory adapter, `part_003`): bulk update returning
`result.affected || 0`. -/
def updateManyOp (db : Db) (model : String) (whereArg : List CleanedWhere)
    (updateArg : Obj) (fault : Option JsError) : Except JsError (Db × Nat) :=
  wrapTry "update many" model
    (match repoRun fault () with
     | .error e => .error e
     | .ok _ =>
       let findOptions := collapseFindOptions (convertWhereToFindOptions whereArg)
       let db2 := db.map (fun row =>
         if matchesUnion findOptions row then mergeRow row updateArg else row)
       .ok (db2, (db.filter (fun row => matchesUnion findOptions row)).length))

/-- `deleteMany` (factory adapter, `part_003`, soft-delete disabled):
bulk delete returning `result.affected || 0`. -/
def deleteManyOp (db : Db) (model : String) (whereArg : List CleanedWhere)
    (fault : Option JsError) : Except JsError (Db × Nat) :=
  wrapTry "delete many" model
    (match repoRun fault () with
     | .error e => .error e
     | .ok _ =>
       let findOptions := collapseFindOptions (convertWhereToFindOptions whereArg)
       .ok (db.filter (fun row => ! matchesUnion findOptions row),
            (db.filter (fun row => matchesUnion findOptions row)).length))

/-- The connection/session events the transaction coordinator issues on
its query runner, in order. -/
inductive TxEvent where
  | connect : TxEvent
  | startTransaction : TxEvent
  | commitTransaction : TxEvent
  | rollbackTransaction : TxEvent
  | release : TxEvent
deriving DecidableEq, Repr

/-- The dispatcher handed to a transactional callback: it is bound to the
transaction scope's manager, modelled by the table state the scope
owns. -/
structure ScopedDispatcher where
  scopeDb : Db
deriving DecidableEq, Repr

/-- What a transactional call leaves behind: the ordered query-runner
events, the table state after commit or rollback, and the propagated
result. -/
structure TxOutcome (α : Type) where
  events : List TxEvent
  db : Db
  result : Except JsError α

/-- The `transaction` coordinator (`part_002` lines 986–1120): connect,
start a transaction, invoke the callback with a dispatcher bound to the
scope; on success commit and return the callback's result, on failure
roll back (restoring the pre-transaction state) and rethrow the original
error; the runner is released in a `finally` either way. -/
def transaction (db : Db) (fn : ScopedDispatcher → Except JsError (α × Db)) :
    TxOutcome α :=
  match fn ⟨db⟩ with
  | .ok (r, db2) =>
    ⟨[.connect, .startTransaction, .commitTransaction, .release], db2, .ok r⟩
  | .error e =>
    ⟨[.connect, .startTransaction, .rollbackTransaction, .release], db, .error e⟩

/-- `createSchema`'s alter diff (`part_003` lines 685–690): the expected
fields whose physical column name is absent from the live column list, in
declaration order. -/
def computeAddColumns (expectedFields : List (String × FieldAttribute))
    (existingColumns : List String) : List (String × FieldAttribute) :=
  expectedFields.filter (fun p => ! existingColumns.contains (fieldNameOr p.2 p.1))

/-- `createSchema`'s alter diff (`part_003` lines 692–702): the live
columns, `id` excluded, whose name matches no expected field's physical
name. -/
def computeDropColumns (expectedFields : List (String × FieldAttribute))
    (existingColumns : List String) : List String :=
  existingColumns.filter (fun c =>
    decide (c ≠ "id") && ! expectedFields.any (fun p => fieldNameOr p.2 p.1 = c))

/-- `createSchema`'s handling of an existing table (`part_003` lines
679–716): compute the two column sets and emit an alter migration (its
change set) exactly when at least one is non-empty. -/
def syncExistingTable (expectedFields : List (String × FieldAttribute))
    (existingColumns : List String) :
    Option (List (String × FieldAttribute) × List String) :=
  let addColumns := computeAddColumns expectedFields existingColumns
  let dropColumns := computeDropColumns expectedFields existingColumns
  if addColumns.length > 0 ∨ dropColumns.length > 0 then
    some (addColumns, dropColumns)
  else
    none

/-! ## Concrete example data used by the witnesses and counterexamples -/

/-- Witness data for the grouping claim: `a = 1 OR b > 2, c = 3`. -/
def c1Where : List CleanedWhere :=
  [{ field := "a", value := .num 1 },
   { field := "b", operator := some .gt, value := .num 2, connector := .or },
   { field := "c", value := .num 3 }]

/-- Callback used by the transaction witnesses: append one row inside
the scope and succeed. -/
def txOkCallback (d : ScopedDispatcher) : Except JsError (Nat × Db) :=
  .ok (7, d.scopeDb ++ [[("id", Value.str "x")]])

/-- Callback used by the transaction witnesses: fail with a plain error. -/
def txFailCallback (_ : ScopedDispatcher) : Except JsError (Nat × Db) :=
  .error (.jsError "boom")

/-- Witness data for the schema-diff claim: live table has `id`, `name`
and stale `legacy`; the expected schema has `name` and a new `phone`. -/
def c10Fields : List (String × FieldAttribute) :=
  [("name", { required := true }), ("phone", {})]

/-- Registry used by the name-resolution examples: one model `user` with
one declared field `name`. -/
def c7Schema : Schema :=
  [("user", { modelName := "user", fields := [("name", {})] })]

/-- Registry whose single field declares the falsy literal default
`false`. -/
def c6Schema : Schema :=
  [("user", { modelName := "user",
              fields := [("flag", { defaultValue := some (.lit (Value.vbool false)) })] })]

/-- Registry whose single field declares a producer-function default. -/
def c6DefSchema : Schema :=
  [("doc", { modelName := "doc",
             fields := [("kind", { defaultValue := some (.func (Value.str "gen")) })] })]

/-- Witness data for the update claim: one `user` row, updated by id. -/
def singleDb : Db := [[("id", Value.str "u1"), ("name", Value.str "A")]]

def singleWhere : List WhereClause := [{ field := "id", value := Value.str "u1" }]

def singleG : FindObj := [("id", FindOperator.raw (Value.str "u1"))]

def userMs : ModelSchema := { modelName := "user", fields := [("name", {})] }

/-! ## Helper lemmas -/

theorem objHasKey_objAssign (o : Obj) (k' k : String) (v : Value) :
    objHasKey (objAssign o k' v) k = (objHasKey o k || decide (k' = k)) := by
  induction o with
  | nil => simp [objAssign, objHasKey]
  | cons p ps ih =>
    by_cases hp : p.1 = k'
    · rw [objAssign, if_pos hp]
      simp only [objHasKey, List.any_cons]
      by_cases hk : k' = k
      · simp [hk, hp]
      · simp [hk, hp]
    · rw [objAssign, if_neg hp]
      simp only [objHasKey, List.any_cons] at ih ⊢
      rw [ih]
      cases h1 : (decide (p.1 = k)) <;> simp

theorem objGet_objAssign_same (o : Obj) (k : String) (v : Value) :
    objGet (objAssign o k v) k = v := by
  induction o with
  | nil => simp [objAssign, objGet]
  | cons p ps ih =>
    by_cases hp : p.1 = k
    · simp [objAssign, hp, objGet]
    · simp [objAssign, hp, objGet, ih]

theorem objGet_objAssign_other (o : Obj) (k' k : String) (v : Value) (h : k' ≠ k) :
    objGet (objAssign o k' v) k = objGet o k := by
  induction o with
  | nil => simp [objAssign, objGet, h]
  | cons p ps ih =>
    by_cases hp : p.1 = k'
    · simp [objAssign, hp, objGet, h, hp ▸ h]
    · simp [objAssign, hp, objGet, ih]

theorem objAssign_not_mem (o : Obj) (k : String) (v : Value)
    (h : objHasKey o k = false) :
    objAssign o k v = o ++ [(k, v)] := by
  induction o with
  | nil => simp [objAssign]
  | cons p ps ih =>
    simp only [objHasKey, List.any_cons, Bool.or_eq_false_iff] at h
    rw [objAssign, if_neg (by simpa using h.1)]
    rw [ih (by simpa [objHasKey] using h.2)]
    simp

theorem objHasKey_append_single (o : Obj) (k k2 : String) (v : Value) :
    objHasKey (o ++ [(k, v)]) k2 = (objHasKey o k2 || decide (k = k2)) := by
  simp [objHasKey, List.any_append]

theorem inputLoop_get_untouched (data : Obj) (action : Action)
    (fields : List (String × FieldAttribute)) :
    ∀ acc k, k ∉ fields.map (fun p => fieldNameOr p.2 p.1) →
      objGet (inputLoop data action fields acc) k = objGet acc k := by
  induction fields with
  | nil => intro acc k _; simp [inputLoop]
  | cons pf rest ih =>
    intro acc k hk
    obtain ⟨k0, f0⟩ := pf
    simp only [List.map_cons, List.mem_cons] at hk
    push_neg at hk
    by_cases hc : objGet data k0 = .undefined ∧
        (¬ defaultTruthy f0.defaultValue ∨ action = .update)
    · rw [inputLoop, if_pos hc]
      exact ih acc k hk.2
    · rw [inputLoop, if_neg hc]
      rw [ih _ k hk.2]
      exact objGet_objAssign_other _ _ _ _ (fun h => hk.1 h.symm)

theorem inputLoop_update_char (data : Obj) (fields : List (String × FieldAttribute)) :
    ∀ acc, (∀ p ∈ fields, objHasKey acc (fieldNameOr p.2 p.1) = false) →
      (fields.map (fun p => fieldNameOr p.2 p.1)).Nodup →
      inputLoop data .update fields acc =
        acc ++ (fields.filter (fun p => decide (objGet data p.1 ≠ Value.undefined))).map
          (fun p => (fieldNameOr p.2 p.1, objGet data p.1)) := by
  induction fields with
  | nil => intro acc _ _; simp [inputLoop]
  | cons pf rest ih =>
    intro acc hdisj hnodup
    obtain ⟨k0, f0⟩ := pf
    simp only [List.map_cons, List.nodup_cons] at hnodup
    by_cases hv : objGet data k0 = Value.undefined
    · rw [inputLoop, if_pos ⟨hv, Or.inr rfl⟩]
      rw [ih acc (fun p hp => hdisj p (List.mem_cons_of_mem _ hp)) hnodup.2]
      simp [List.filter_cons, hv]
    · rw [inputLoop, if_neg (by intro hcon; exact hv hcon.1)]
      have hwad : withApplyDefault (objGet data k0) f0 .update = objGet data k0 := by
        simp [withApplyDefault]
      rw [hwad]
      have hacc0 : objHasKey acc (fieldNameOr f0 k0) = false :=
        hdisj (k0, f0) (List.mem_cons_self _ _)
      rw [objAssign_not_mem acc _ _ hacc0]
      rw [ih (acc ++ [(fieldNameOr f0 k0, objGet data k0)]) ?_ hnodup.2]
      · simp [List.filter_cons, hv]
      · intro p hp
        rw [objHasKey_append_single]
        rw [hdisj p (List.mem_cons_of_mem _ hp)]
        simp only [Bool.false_or, decide_eq_false_iff_not]
        intro hcon
        exact hnodup.1 (hcon ▸ List.mem_map_of_mem (fun q => fieldNameOr q.2 q.1) hp)

theorem inputLoop_get_field (data : Obj) (action : Action)
    (fields : List (String × FieldAttribute)) :
    ∀ acc key fattr, (fields.map (fun p => fieldNameOr p.2 p.1)).Nodup →
      (key, fattr) ∈ fields →
      ¬ (objGet data key = .undefined ∧
         (¬ defaultTruthy fattr.defaultValue ∨ action = .update)) →
      objGet (inputLoop data action fields acc) (fieldNameOr fattr key) =
        withApplyDefault (objGet data key) fattr action := by
  induction fields with
  | nil => intro acc key fattr _ hmem _; simp at hmem
  | cons pf rest ih =>
    intro acc key fattr hnodup hmem hskip
    obtain ⟨k0, f0⟩ := pf
    simp only [List.map_cons, List.nodup_cons] at hnodup
    rcases List.mem_cons.mp hmem with heq | hmem2
    · injection heq with h1 h2
      subst h1
      subst h2
      rw [inputLoop, if_neg hskip]
      rw [inputLoop_get_untouched data action rest _ _ hnodup.1]
      exact objGet_objAssign_same _ _ _
    · by_cases hc : objGet data k0 = .undefined ∧
          (¬ defaultTruthy f0.defaultValue ∨ action = .update)
      · rw [inputLoop, if_pos hc]
        exact ih acc key fattr hnodup.2 hmem2 hskip
      · rw [inputLoop, if_neg hc]
        exact ih _ key fattr hnodup.2 hmem2 hskip

theorem outputLoop_hasKey_mono (row : Obj) (sel : List String)
    (fields : List (String × FieldAttribute)) :
    ∀ acc k, objHasKey acc k = true → objHasKey (outputLoop row sel fields acc) k = true := by
  induction fields with
  | nil => intro acc k h; simpa [outputLoop]
  | cons pf rest ih =>
    intro acc k h
    obtain ⟨key, fattr⟩ := pf
    by_cases hc : sel ≠ [] ∧ ¬ sel.contains key
    · rw [outputLoop, if_pos hc]
      exact ih acc k h
    · rw [outputLoop, if_neg hc]
      exact ih _ k (by rw [objHasKey_objAssign, h]; rfl)

theorem outputLoop_keys_bound (row : Obj) (sel : List String)
    (fields : List (String × FieldAttribute)) :
    ∀ acc k, objHasKey (outputLoop row sel fields acc) k = true →
      objHasKey acc k = true ∨ k ∈ fields.map (fun p => p.1) := by
  induction fields with
  | nil => intro acc k h; left; simpa [outputLoop] using h
  | cons pf rest ih =>
    intro acc k h
    obtain ⟨key, fattr⟩ := pf
    by_cases hc : sel ≠ [] ∧ ¬ sel.contains key
    · rw [outputLoop, if_pos hc] at h
      rcases ih acc k h with h2 | h2
      · exact Or.inl h2
      · exact Or.inr (by simpa using Or.inr h2)
    · rw [outputLoop, if_neg hc] at h
      rcases ih _ k h with h2 | h2
      · rw [objHasKey_objAssign] at h2
        rcases Bool.or_eq_true_iff.mp h2 with h3 | h3
        · exact Or.inl h3
        · exact Or.inr (by simp [of_decide_eq_true h3])
      · exact Or.inr (by simpa using Or.inr h2)

theorem outputLoop_get_untouched (row : Obj) (sel : List String)
    (fields : List (String × FieldAttribute)) :
    ∀ acc k, k ∉ fields.map (fun p => p.1) →
      objGet (outputLoop row sel fields acc) k = objGet acc k := by
  induction fields with
  | nil => intro acc k _; simp [outputLoop]
  | cons pf rest ih =>
    intro acc k hk
    obtain ⟨key, fattr⟩ := pf
    simp only [List.map_cons, List.mem_cons] at hk
    push_neg at hk
    by_cases hc : sel ≠ [] ∧ ¬ sel.contains key
    · rw [outputLoop, if_pos hc]
      exact ih acc k hk.2
    · rw [outputLoop, if_neg hc]
      rw [ih _ k hk.2]
      exact objGet_objAssign_other _ _ _ _ (fun h => hk.1 h.symm)

theorem outputLoop_get_field (row : Obj) (sel : List String)
    (fields : List (String × FieldAttribute)) :
    ∀ acc key fattr, (fields.map (fun p => p.1)).Nodup →
      (key, fattr) ∈ fields → (sel = [] ∨ sel.contains key = true) →
      objGet (outputLoop row sel fields acc) key = objGet row (fieldNameOr fattr key) := by
  induction fields with
  | nil => intro acc key fattr _ hmem _; simp at hmem
  | cons pf rest ih =>
    intro acc key fattr hnodup hmem hsel
    obtain ⟨k0, f0⟩ := pf
    simp only [List.map_cons, List.nodup_cons] at hnodup
    rcases List.mem_cons.mp hmem with heq | hmem2
    · injection heq with h1 h2
      subst h1
      subst h2
      have hc : ¬ (sel ≠ [] ∧ ¬ sel.contains key) := by
        rcases hsel with h | h
        · intro hcon; exact hcon.1 h
        · intro hcon; exact hcon.2 (by simpa using h)
      rw [outputLoop, if_neg hc]
      rw [outputLoop_get_untouched row sel rest _ key hnodup.1]
      exact objGet_objAssign_same _ _ _
    · by_cases hc : sel ≠ [] ∧ ¬ sel.contains k0
      · rw [outputLoop, if_pos hc]
        exact ih acc key fattr hnodup.2 hmem2 hsel
      · rw [outputLoop, if_neg hc]
        exact ih _ key fattr hnodup.2 hmem2 hsel

theorem transformOutput_isOk (schema : Schema) (model : String) (ms : ModelSchema)
    (d : Option Obj) (select : List String) (hms : schemaFind schema model = some ms) :
    ∃ o, transformOutput schema d model select = .ok o := by
  cases d with
  | none => exact ⟨none, rfl⟩
  | some row =>
    exact ⟨some (outputLoop row select ms.fields (outputInit row select)),
      by simp [transformOutput, hms]⟩

theorem applyUpdateDb_no_match (db : Db) (g : FindObj) (u : Obj)
    (h : dbFindOne db g = none) :
    applyUpdateDb db g u = db := by
  have hall : ∀ row ∈ db, ¬ matchesGroup g row = true := by
    simpa [dbFindOne, List.find?_eq_none] using h
  unfold applyUpdateDb
  calc db.map (fun row => if matchesGroup g row then mergeRow row u else row)
      = db.map id := by
        apply List.map_congr_left
        intro row hrow
        simp [Bool.eq_false_iff.mpr (hall row hrow)]
    _ = db := List.map_id db

theorem splitAtOr_cons_shape (ws : List CleanedWhere) :
    ∃ seg rest, splitAtOr ws = seg :: rest := by
  induction ws with
  | nil => exact ⟨[], [], rfl⟩
  | cons w ws ih =>
    obtain ⟨seg, rest, h⟩ := ih
    by_cases hc : w.connector = .or
    · exact ⟨[], (w :: seg) :: rest, by simp [splitAtOr, h, hc]⟩
    · exact ⟨w :: seg, rest, by simp [splitAtOr, h, hc]⟩

theorem convertFold_eq (ws : List CleanedWhere) :
    ∀ (done : List FindObj) (cur : FindObj),
      (ws.foldl convertStep (done, cur)).1 ++ [(ws.foldl convertStep (done, cur)).2] =
        done ++ (((splitAtOr ws).headD []).foldl clauseAssign cur ::
                 ((splitAtOr ws).tail).map specGroupObject) := by
  induction ws with
  | nil => intro done cur; simp [splitAtOr]
  | cons w ws ih =>
    intro done cur
    obtain ⟨seg, rest, hsplit⟩ := splitAtOr_cons_shape ws
    by_cases hc : w.connector = .or
    · have h1 : (w :: ws).foldl convertStep (done, cur) =
          ws.foldl convertStep (done ++ [cur], clauseAssign [] w) := by
        simp [convertStep, hc]
      rw [h1, ih (done ++ [cur]) (clauseAssign [] w)]
      simp [splitAtOr, hsplit, hc, specGroupObject]
    · have h1 : (w :: ws).foldl convertStep (done, cur) =
          ws.foldl convertStep (done, clauseAssign cur w) := by
        simp [convertStep, hc]
      rw [h1, ih done (clauseAssign cur w)]
      simp [splitAtOr, hsplit, hc]

theorem convert_eq_specCompile (ws : List CleanedWhere) :
    convertWhereToFindOptions ws = specCompile ws := by
  by_cases h : ws = []
  · subst h
    simp [convertWhereToFindOptions, specCompile, splitAtOr, specGroupObject]
  · obtain ⟨seg, rest, hsplit⟩ := splitAtOr_cons_shape ws
    unfold convertWhereToFindOptions
    rw [if_neg h]
    have hf := convertFold_eq ws [] []
    simp only [List.nil_append] at hf
    rw [hf]
    simp [specCompile, hsplit, specGroupObject]

/-! ## Claim theorems -/

/-- C1: for every non-empty ordered where-clause list, the factory
compiler starts a new conjunction group at each OR-connector clause and
assigns every clause into the current group under its resolved field
name, producing exactly the OR-split list of conjunction objects; the
caller collapses a one-group result to the single object form and
otherwise passes the ordered list of groups (a disjunction of per-group
conjunctions). -/
theorem convertWhere_or_grouping (ws : List CleanedWhere) (h : ws ≠ []) :
    convertWhereToFindOptions ws = specCompile ws ∧
    collapseFindOptions (convertWhereToFindOptions ws) =
      (match specCompile ws with
       | [g] => FindOptionsUnion.single g
       | gs => FindOptionsUnion.multi gs) := by
  refine ⟨convert_eq_specCompile ws, ?_⟩
  rw [convert_eq_specCompile ws]
  rfl

theorem convertWhere_or_grouping_witness :
    convertWhereToFindOptions c1Where = specCompile c1Where ∧
    collapseFindOptions (convertWhereToFindOptions c1Where) =
      (match specCompile c1Where with
       | [g] => FindOptionsUnion.single g
       | gs => FindOptionsUnion.multi gs) :=
  convertWhere_or_grouping c1Where (by decide)

/-- C2: when the first clause's connector is OR, the initial empty group
pushed before the loop is never filled and stays the first element of the
compiled list, and — the empty group being the match-all predicate — the
compiled disjunction matches every row. -/
theorem convertWhere_leading_or_matches_all (w : CleanedWhere) (ws : List CleanedWhere)
    (h : w.connector = .or) :
    (convertWhereToFindOptions (w :: ws)).head? = some [] ∧
    ∀ row : Obj, matchesAny (convertWhereToFindOptions (w :: ws)) row = true := by
  obtain ⟨seg, rest, hsplit⟩ := splitAtOr_cons_shape ws
  have hc := convert_eq_specCompile (w :: ws)
  have hs : splitAtOr (w :: ws) = [] :: (w :: seg) :: rest := by
    simp [splitAtOr, hsplit, h]
  constructor
  · rw [hc]
    simp [specCompile, hs, specGroupObject]
  · intro row
    rw [hc]
    simp [specCompile, hs, matchesAny]
    exact Or.inl (by simp [specGroupObject, matchesGroup])

theorem convertWhere_leading_or_matches_all_witness :
    (convertWhereToFindOptions
        [{ field := "a", value := .num 1, connector := .or }]).head? = some [] ∧
    ∀ row : Obj, matchesAny (convertWhereToFindOptions
        [{ field := "a", value := .num 1, connector := .or }]) row = true :=
  convertWhere_leading_or_matches_all
    { field := "a", value := .num 1, connector := .or } [] (by decide)

/-- C4 counterexample: the legacy operator translation
(`part_002`/`part_004`) has no `not_in` case, so `not_in` falls through
to the default and yields the raw value instead of the negated-membership
form the claim states. -/
theorem operator_translation_counterexample :
    convertOperatorToTypeORMLegacy "not_in" (Value.arr [Prim.str "a"]) =
      FindOperator.raw (Value.arr [Prim.str "a"]) ∧
    convertOperatorToTypeORMLegacy "not_in" (Value.arr [Prim.str "a"]) ≠
      FindOperator.notOp (FindOperator.inList (Value.arr [Prim.str "a"])) := by
  decide

/-- C4 (amended): the factory adapter's operator translation maps every
operator as the claim states (`contains`/`starts_with`/`ends_with` to the
wildcard-wrapped pattern forms, the comparison and membership operators
to their native forms, `eq` or an absent operator to the raw value); the
legacy variant agrees except that it lacks a `not_in` case and passes the
raw value through for it. -/
theorem operator_translation (v : Value) :
    compileClauseValue none v = .raw v ∧
    compileClauseValue (some .eq) v = .raw v ∧
    convertOperatorToTypeORM .ne v = .notOp (.raw v) ∧
    convertOperatorToTypeORM .lt v = .lessThan v ∧
    convertOperatorToTypeORM .lte v = .lessThanOrEqual v ∧
    convertOperatorToTypeORM .gt v = .moreThan v ∧
    convertOperatorToTypeORM .gte v = .moreThanOrEqual v ∧
    convertOperatorToTypeORM .inOp v = .inList v ∧
    convertOperatorToTypeORM .notIn v = .notOp (.inList v) ∧
    convertOperatorToTypeORM .contains v = .like ("%" ++ valueToString v ++ "%") ∧
    convertOperatorToTypeORM .startsWith v = .like (valueToString v ++ "%") ∧
    convertOperatorToTypeORM .endsWith v = .like ("%" ++ valueToString v) ∧
    convertOperatorToTypeORMLegacy "eq" v = .raw v ∧
    convertOperatorToTypeORMLegacy "ne" v = .notOp (.raw v) ∧
    convertOperatorToTypeORMLegacy "lt" v = .lessThan v ∧
    convertOperatorToTypeORMLegacy "lte" v = .lessThanOrEqual v ∧
    convertOperatorToTypeORMLegacy "gt" v = .moreThan v ∧
    convertOperatorToTypeORMLegacy "gte" v = .moreThanOrEqual v ∧
    convertOperatorToTypeORMLegacy "in" v = .inList v ∧
    convertOperatorToTypeORMLegacy "contains" v = .like ("%" ++ valueToString v ++ "%") ∧
    convertOperatorToTypeORMLegacy "starts_with" v = .like (valueToString v ++ "%") ∧
    convertOperatorToTypeORMLegacy "ends_with" v = .like ("%" ++ valueToString v) ∧
    convertOperatorToTypeORMLegacy "not_in" v = .raw v := by
  refine ⟨rfl, rfl, rfl, rfl, rfl, rfl, rfl, rfl, rfl, rfl, rfl, rfl,
    ?_, ?_, ?_, ?_, ?_, ?_, ?_, ?_, ?_, ?_, ?_⟩ <;> rfl

/-- C8: the transaction coordinator invokes the callback with a
dispatcher bound to the transactional scope; on success it commits,
releases the runner and returns the callback's result; on failure it
rolls back, releases the runner and rethrows the original error object
unchanged. -/
theorem transaction_commit_rollback {α : Type} (db : Db)
    (fn : ScopedDispatcher → Except JsError (α × Db)) :
    (transaction db fn).events.getLast? = some TxEvent.release ∧
    (∀ r db2, fn ⟨db⟩ = .ok (r, db2) →
       (transaction db fn).result = .ok r ∧
       (transaction db fn).db = db2 ∧
       TxEvent.commitTransaction ∈ (transaction db fn).events ∧
       TxEvent.rollbackTransaction ∉ (transaction db fn).events) ∧
    (∀ e, fn ⟨db⟩ = .error e →
       (transaction db fn).result = .error e ∧
       (transaction db fn).db = db ∧
       TxEvent.rollbackTransaction ∈ (transaction db fn).events ∧
       TxEvent.commitTransaction ∉ (transaction db fn).events) := by
  cases hfn : fn ⟨db⟩ with
  | ok p =>
    refine ⟨by simp [transaction, hfn], ?_, ?_⟩
    · intro r db2 h
      cases h
      simp [transaction, hfn]
    · intro e h
      cases h
  | error e0 =>
    refine ⟨by simp [transaction, hfn], ?_, ?_⟩
    · intro r db2 h
      cases h
    · intro e h
      cases h
      simp [transaction, hfn]

theorem transaction_commit_rollback_witness :
    ((transaction [] txOkCallback).result = .ok 7 ∧
       TxEvent.commitTransaction ∈ (transaction [] txOkCallback).events) ∧
    ((transaction [] txFailCallback).result = .error (.jsError "boom") ∧
       TxEvent.rollbackTransaction ∈ (transaction [] txFailCallback).events) := by
  have hok := (transaction_commit_rollback [] txOkCallback).2.1
    7 [[("id", Value.str "x")]] rfl
  have hfail := (transaction_commit_rollback [] txFailCallback).2.2
    (.jsError "boom") rfl
  exact ⟨⟨hok.1, hok.2.2.1⟩, ⟨hfail.1, hfail.2.2.1⟩⟩

/-- C9: for every one of the eight dispatcher operations, a failure of
the underlying repository call is caught and re-raised as a
`BetterAuthError` whose message names the operation and the model and
carries the original error's message text. -/
theorem operations_wrap_errors (db : Db) (model : String) (row updArg : Obj)
    (whereArg : List CleanedWhere) (lim : Int) (off : Option Int) (e : JsError) :
    createOp db model row (some e) =
      .error (.betterAuth ("Failed to create " ++ model ++ ": " ++ jsMessage e)) ∧
    updateOp3 db model whereArg updArg (some e) =
      .error (.betterAuth ("Failed to update " ++ model ++ ": " ++ jsMessage e)) ∧
    deleteOp db model whereArg (some e) =
      .error (.betterAuth ("Failed to delete " ++ model ++ ": " ++ jsMessage e)) ∧
    findOneOp db model whereArg (some e) =
      .error (.betterAuth ("Failed to find " ++ model ++ ": " ++ jsMessage e)) ∧
    findManyOp db model whereArg lim off (some e) =
      .error (.betterAuth ("Failed to find many " ++ model ++ ": " ++ jsMessage e)) ∧
    countOp db model whereArg (some e) =
      .error (.betterAuth ("Failed to count " ++ model ++ ": " ++ jsMessage e)) ∧
    updateManyOp db model whereArg updArg (some e) =
      .error (.betterAuth ("Failed to update many " ++ model ++ ": " ++ jsMessage e)) ∧
    deleteManyOp db model whereArg (some e) =
      .error (.betterAuth ("Failed to delete many " ++ model ++ ": " ++ jsMessage e)) := by
  exact ⟨rfl, rfl, rfl, rfl, rfl, rfl, rfl, rfl⟩

/-- C10: for an existing table, `createSchema` computes `addColumns` as
exactly the expected fields whose physical column name is absent from the
live column list, `dropColumns` as exactly the live columns other than
`id` matching no expected field's physical name, and emits an alter
migration if and only if one of the two sets is non-empty. -/
theorem createSchema_alter_diff (fields : List (String × FieldAttribute))
    (cols : List String) :
    (∀ p : String × FieldAttribute,
       p ∈ computeAddColumns fields cols ↔
         p ∈ fields ∧ fieldNameOr p.2 p.1 ∉ cols) ∧
    (∀ c : String,
       c ∈ computeDropColumns fields cols ↔
         c ∈ cols ∧ c ≠ "id" ∧ ∀ p ∈ fields, fieldNameOr p.2 p.1 ≠ c) ∧
    ((syncExistingTable fields cols).isSome ↔
       computeAddColumns fields cols ≠ [] ∨ computeDropColumns fields cols ≠ []) ∧
    (∀ a d, syncExistingTable fields cols = some (a, d) →
       a = computeAddColumns fields cols ∧ d = computeDropColumns fields cols) := by
  refine ⟨?_, ?_, ?_, ?_⟩
  · intro p
    simp [computeAddColumns, List.mem_filter]
  · intro c
    simp [computeDropColumns, List.mem_filter]
  · unfold syncExistingTable
    by_cases h : (computeAddColumns fields cols).length > 0 ∨
        (computeDropColumns fields cols).length > 0
    · simp [h]
      rcases h with h | h
      · exact Or.inl (by intro hnil; rw [hnil] at h; simp at h)
      · exact Or.inr (by intro hnil; rw [hnil] at h; simp at h)
    · simp [h]
      push_neg at h
      constructor
      · exact List.length_eq_zero.mp (Nat.le_zero.mp h.1)
      · exact List.length_eq_zero.mp (Nat.le_zero.mp h.2)
  · intro a d h
    unfold syncExistingTable at h
    by_cases hc : (computeAddColumns fields cols).length > 0 ∨
        (computeDropColumns fields cols).length > 0
    · rw [if_pos hc] at h
      cases h
      exact ⟨rfl, rfl⟩
    · rw [if_neg hc] at h
      cases h

theorem createSchema_alter_diff_witness :
    ("phone", ({} : FieldAttribute)) ∈ computeAddColumns c10Fields ["id", "name", "legacy"] ∧
    "legacy" ∈ computeDropColumns c10Fields ["id", "name", "legacy"] ∧
    (syncExistingTable c10Fields ["id", "name", "legacy"]).isSome := by
  refine ⟨?_, ?_, ?_⟩
  · exact ((createSchema_alter_diff c10Fields ["id", "name", "legacy"]).1
      ("phone", {})).mpr (by decide)
  · exact ((createSchema_alter_diff c10Fields ["id", "name", "legacy"]).2.1
      "legacy").mpr (by decide)
  · exact ((createSchema_alter_diff c10Fields ["id", "name", "legacy"]).2.2.1).mpr
      (Or.inl (by decide))

/-- C7 counterexample: resolving a field that is not declared on a
declared model does not fail with a `SchemaError` — the source reads
`.fieldName` off `undefined`, a generic runtime `TypeError`. -/
theorem getField_unknown_field_counterexample :
    getField c7Schema "user" "email2" =
      .error (.typeError "Cannot read properties of undefined") ∧
    isSchemaError (.typeError "Cannot read properties of undefined") = false := by
  decide

/-- C7 (amended): `id` is returned unchanged without any schema lookup;
an unknown model fails with the `SchemaError` of the taxonomy; a declared
model with an undeclared field fails with a generic runtime type error
(not a `SchemaError`); a declared field resolves to its physical name,
defaulting to the logical name when no override exists. -/
theorem getField_resolution (schema : Schema) (model field : String) :
    (field = "id" → getField schema model field = .ok field) ∧
    (field ≠ "id" → schemaFind schema model = none →
       getField schema model field =
         .error (.jsError ("Model " ++ model ++ " not found in schema")) ∧
       ∀ e, getField schema model field = .error e → isSchemaError e = true) ∧
    (∀ ms, field ≠ "id" → schemaFind schema model = some ms →
       fieldsFind ms.fields field = none →
       getField schema model field =
         .error (.typeError "Cannot read properties of undefined") ∧
       ∀ e, getField schema model field = .error e → isSchemaError e = false) ∧
    (∀ ms f, field ≠ "id" → schemaFind schema model = some ms →
       fieldsFind ms.fields field = some f →
       getField schema model field = .ok (fieldNameOr f field)) := by
  refine ⟨?_, ?_, ?_, ?_⟩
  · intro hid
    subst hid
    simp [getField]
  · intro hfield hnone
    have hg : getField schema model field =
        .error (.jsError ("Model " ++ model ++ " not found in schema")) := by
      simp [getField, hfield, hnone]
    refine ⟨hg, ?_⟩
    intro e he
    rw [hg] at he
    cases he
    rfl
  · intro ms hfield hsome hmiss
    have hg : getField schema model field =
        .error (.typeError "Cannot read properties of undefined") := by
      simp [getField, hfield, hsome, hmiss]
    refine ⟨hg, ?_⟩
    intro e he
    rw [hg] at he
    cases he
    rfl
  · intro ms f hfield hsome hf
    simp [getField, hfield, hsome, hf]

theorem getField_resolution_witness :
    getField c7Schema "user" "id" = .ok "id" ∧
    getField c7Schema "ghost" "name" =
      .error (.jsError ("Model " ++ "ghost" ++ " not found in schema")) ∧
    getField c7Schema "user" "name" = .ok (fieldNameOr {} "name") := by
  refine ⟨?_, ?_, ?_⟩
  · exact (getField_resolution c7Schema "user" "id").1 rfl
  · exact ((getField_resolution c7Schema "ghost" "name").2.1 (by decide) (by decide)).1
  · exact (getField_resolution c7Schema "user" "name").2.2.2
      { modelName := "user", fields := [("name", {})] } {} (by decide) (by decide) (by decide)

/-- C5 counterexample: with an empty select list the claim requires the
`id` key in the result, but a physical record without a truthy `id` (or
`_id`) value produces a logical record with no `id` key — the seed is
only built from a truthy `data.id || data._id`. -/
theorem transformOutput_missing_id_counterexample :
    transformOutput c7Schema (some [("name", Value.str "A")]) "user" [] =
      .ok (some [("name", Value.str "A")]) ∧
    objHasKey [("name", Value.str "A")] "id" = false := by
  decide

/-- C5 (amended): the output transformer returns `null` on `null` input;
the result includes the `id` key when the select list is empty or
contains `id` **and** the record holds a truthy `id` or `_id` value;
every key of the result is `id` or a declared field; and every declared
field not excluded by a non-empty select list is mapped from its physical
column's stored value. -/
theorem transformOutput_characterization (schema : Schema) (model : String)
    (ms : ModelSchema) (row : Obj) (select : List String)
    (hms : schemaFind schema model = some ms) :
    transformOutput schema none model select = .ok none ∧
    transformOutput schema (some row) model select =
      .ok (some (outputLoop row select ms.fields (outputInit row select))) ∧
    ((select = [] ∨ select.contains "id" = true) →
     (truthy (objGet row "id") = true ∨ truthy (objGet row "_id") = true) →
       objHasKey (outputLoop row select ms.fields (outputInit row select)) "id" = true) ∧
    (∀ k, objHasKey (outputLoop row select ms.fields (outputInit row select)) k = true →
       k = "id" ∨ k ∈ ms.fields.map (fun p => p.1)) ∧
    ((ms.fields.map (fun p => p.1)).Nodup →
      ∀ key fattr, (key, fattr) ∈ ms.fields → (select = [] ∨ select.contains key = true) →
        objGet (outputLoop row select ms.fields (outputInit row select)) key =
          objGet row (fieldNameOr fattr key)) := by
  refine ⟨rfl, by simp [transformOutput, hms], ?_, ?_, ?_⟩
  · intro hsel hid
    apply outputLoop_hasKey_mono
    have h1 : (truthy (objGet row "id") ∨ truthy (objGet row "_id")) := by
      rcases hid with h | h
      · exact Or.inl (by simpa using h)
      · exact Or.inr (by simpa using h)
    have h2 : (select = [] ∨ select.contains "id") := by
      rcases hsel with h | h
      · exact Or.inl h
      · exact Or.inr (by simpa using h)
    rw [outputInit, if_pos h1, if_pos h2]
    simp [objHasKey]
  · intro k hk
    rcases outputLoop_keys_bound row select ms.fields _ k hk with h | h
    · left
      unfold outputInit at h
      by_cases h1 : (truthy (objGet row "id") ∨ truthy (objGet row "_id"))
      · rw [if_pos h1] at h
        by_cases h2 : (select = [] ∨ select.contains "id")
        · rw [if_pos h2] at h
          have h3 : "id" = k := by simpa [objHasKey] using h
          exact h3.symm
        · rw [if_neg h2] at h
          simp [objHasKey] at h
      · rw [if_neg h1] at h
        simp [objHasKey] at h
    · right
      exact h
  · intro hnodup key fattr hmem hsel
    exact outputLoop_get_field row select ms.fields _ key fattr hnodup hmem hsel

theorem transformOutput_characterization_witness :
    transformOutput c7Schema
        (some [("id", Value.str "u1"), ("name", Value.str "A")]) "user" [] =
      .ok (some (outputLoop [("id", Value.str "u1"), ("name", Value.str "A")] []
        [("name", ({} : FieldAttribute))]
        (outputInit [("id", Value.str "u1"), ("name", Value.str "A")] []))) ∧
    objHasKey (outputLoop [("id", Value.str "u1"), ("name", Value.str "A")] []
        [("name", ({} : FieldAttribute))]
        (outputInit [("id", Value.str "u1"), ("name", Value.str "A")] [])) "id" = true := by
  have h := transformOutput_characterization c7Schema "user"
    { modelName := "user", fields := [("name", {})] }
    [("id", Value.str "u1"), ("name", Value.str "A")] [] (by decide)
  exact ⟨h.2.1, h.2.2.1 (Or.inl rfl) (Or.inl (by decide))⟩

/-- C6 counterexample: on `create`, a field whose value is absent and
whose declared default is the falsy literal `false` is skipped entirely —
the source's truthiness test `!fields[field].defaultValue` treats a falsy
default as no default — instead of being resolved to the literal as the
claim states. -/
theorem transformInput_falsy_default_counterexample :
    transformInput c6Schema [] "user" .create false = .ok [("id", Value.undefined)] ∧
    objHasKey [("id", Value.undefined)] "flag" = false := by
  decide

/-- C6 (amended): on `update` the input transformer passes every present
(non-`undefined`) value through unchanged, never applies defaults, and
skips `undefined` fields entirely (the result is exactly the present
fields mapped to their physical names); on `create`, a field whose value
is absent and whose declared default is truthy is resolved by calling the
producer when it is a function and taking the literal otherwise — a falsy
literal default is treated as absent and skipped. -/
theorem transformInput_characterization (schema : Schema) (model : String)
    (ms : ModelSchema) (data : Obj) (useDbId : Bool)
    (hms : schemaFind schema model = some ms)
    (hnodup : (ms.fields.map (fun p => fieldNameOr p.2 p.1)).Nodup) :
    transformInput schema data model .update useDbId =
      .ok ((ms.fields.filter (fun p => decide (objGet data p.1 ≠ Value.undefined))).map
        (fun p => (fieldNameOr p.2 p.1, objGet data p.1))) ∧
    transformInput schema data model .create useDbId =
      .ok (inputLoop data .create ms.fields (inputInit data useDbId .create)) ∧
    (∀ key fattr, (key, fattr) ∈ ms.fields →
       objGet data key = .undefined → defaultTruthy fattr.defaultValue = true →
       objGet (inputLoop data .create ms.fields (inputInit data useDbId .create))
           (fieldNameOr fattr key) = resolveDefault fattr.defaultValue) := by
  refine ⟨?_, by simp [transformInput, hms], ?_⟩
  · have hinit : inputInit data useDbId .update = [] := by
      simp [inputInit]
    have hloop := inputLoop_update_char data ms.fields []
      (fun p _ => by simp [objHasKey]) hnodup
    simp [transformInput, hms, hinit, hloop]
  · intro key fattr hmem hundef htruthy
    have hskip : ¬ (objGet data key = .undefined ∧
        (¬ defaultTruthy fattr.defaultValue ∨ Action.create = .update)) := by
      intro hcon
      rcases hcon.2 with h | h
      · exact h htruthy
      · cases h
    rw [inputLoop_get_field data .create ms.fields _ key fattr hnodup hmem hskip]
    simp [withApplyDefault, hundef, htruthy]

theorem transformInput_characterization_witness :
    transformInput c6DefSchema [("kind", Value.str "k")] "doc" .update false =
      .ok (([("kind",
          ({ defaultValue := some (.func (Value.str "gen")) } : FieldAttribute))].filter
            (fun p => decide (objGet [("kind", Value.str "k")] p.1 ≠ Value.undefined))).map
          (fun p => (fieldNameOr p.2 p.1, objGet [("kind", Value.str "k")] p.1))) ∧
    objGet (inputLoop [] .create
        [("kind", ({ defaultValue := some (.func (Value.str "gen")) } : FieldAttribute))]
        (inputInit [] false .create))
        (fieldNameOr { defaultValue := some (.func (Value.str "gen")) } "kind") =
      resolveDefault (some (.func (Value.str "gen"))) := by
  have h1 := transformInput_characterization c6DefSchema "doc"
    { modelName := "doc", fields := [("kind", { defaultValue := some (.func (Value.str "gen")) })] }
    [("kind", Value.str "k")] false (by decide) (by decide)
  have h2 := transformInput_characterization c6DefSchema "doc"
    { modelName := "doc", fields := [("kind", { defaultValue := some (.func (Value.str "gen")) })] }
    [] false (by decide) (by decide)
  exact ⟨h1.1, h2.2.2 "kind" { defaultValue := some (.func (Value.str "gen")) }
    (by decide) (by decide) (by decide)⟩

/-- C3: the legacy `update`, given the compiled predicate `g` and a known
model: with exactly one where-clause and a matching row, the row is read
first, the update is applied, the row is re-read by the same predicate
and the transformed result is returned alongside the updated state; with
one clause and no matching row the update is still executed (a no-op) and
`null` is returned; with two or more clauses the update is executed and
`null` is returned. -/
theorem update_single_clause_readback (schema : Schema) (useDbId : Bool) (db : Db)
    (model : String) (whereArg : List WhereClause) (updArg : Obj) (select : List String)
    (ms : ModelSchema) (g : FindObj)
    (hms : schemaFind schema model = some ms)
    (hconv : convertWhereToFindOptionsLegacy schema model whereArg = .ok g) :
    (∀ r, whereArg.length = 1 → dbFindOne db g = some r →
       updateOp schema useDbId db model whereArg updArg select =
         Except.map
           (fun output => (applyUpdateDb db g (updateTransformed ms updArg), output))
           (transformOutput schema
             (dbFindOne (applyUpdateDb db g (updateTransformed ms updArg)) g)
             model select)) ∧
    (whereArg.length = 1 → dbFindOne db g = none →
       updateOp schema useDbId db model whereArg updArg select =
         .ok (applyUpdateDb db g (updateTransformed ms updArg), none) ∧
       applyUpdateDb db g (updateTransformed ms updArg) = db) ∧
    (2 ≤ whereArg.length →
       updateOp schema useDbId db model whereArg updArg select =
         .ok (applyUpdateDb db g (updateTransformed ms updArg), none)) := by
  have hti : transformInput schema updArg model .update useDbId =
      .ok (updateTransformed ms updArg) := by
    simp [transformInput, hms, inputInit, updateTransformed]
  have hgm : getModelName schema model = .ok ms.modelName := by
    simp [getModelName, hms]
  refine ⟨?_, ?_, ?_⟩
  · intro r hlen hfind
    obtain ⟨o, ho⟩ := transformOutput_isOk schema model ms
      (dbFindOne (applyUpdateDb db g (updateTransformed ms updArg)) g) select hms
    simp only [updateOp, hgm, hconv, hti, hlen, hfind, ho, wrapTry, Except.map,
      if_pos]
  · intro hlen hfind
    have hnoop := applyUpdateDb_no_match db g (updateTransformed ms updArg) hfind
    refine ⟨?_, hnoop⟩
    simp only [updateOp, hgm, hconv, hti, hlen, hfind, wrapTry, if_pos]
  · intro hlen
    have hne : ¬ (whereArg.length = 1) := by omega
    simp only [updateOp, hgm, hconv, hti, wrapTry, if_neg hne]

theorem update_single_clause_readback_witness :
    updateOp c7Schema false singleDb "user" singleWhere [("name", Value.str "B")] [] =
      Except.map
        (fun output =>
          (applyUpdateDb singleDb singleG (updateTransformed userMs [("name", Value.str "B")]),
           output))
        (transformOutput c7Schema
          (dbFindOne
            (applyUpdateDb singleDb singleG (updateTransformed userMs [("name", Value.str "B")]))
            singleG)
          "user" []) :=
  (update_single_clause_readback c7Schema false singleDb "user" singleWhere
      [("name", Value.str "B")] [] userMs singleG (by decide) (by decide)).1
    [("id", Value.str "u1"), ("name", Value.str "A")] (by decide) (by decide)

end TypeormAdapter
